import Mathlib

/-!
Verification of the codex-orchestrator core against its specification.

The TypeScript sources are shallowly embedded as Lean definitions:

* `src/tmux.ts` — `incrementalDiff`, `validateJobId`, `getSessionName`, and the
  session-adapter operations (`sendMessage`, `sendControl`, `capturePane`,
  `captureFullHistory`, `killSession`, `listSessions`). The external `tmux`
  process is modelled by an oracle structure `TmuxEnv` describing, for each
  invocation, whether the session exists, and each command's exit status and
  stdout; `try`/`catch` around a shelled command becomes a `match` on an
  `Except` value.
* `src/claims.ts` — the claim store (`addClaim`, `checkOverlaps`,
  `patternsOverlap`, `cleanStaleClaims`, `saveClaims`). Persistence is
  modelled by an explicit filesystem map from paths to stored claim data plus
  a trace of filesystem operations (`FsOp`), so that the write-discipline of
  `saveClaims` (direct write vs temp-file-and-rename) is visible.
* `src/jobs.ts` and `src/session-parser.ts` are not part of the published
  sources (only their tests and callers are); the definitions for
  `refreshJobStatus`, `killJob`, `cleanupOldJobs` and `parseJsonlSession` /
  the patch-body scanner are modelled from the specification, as marked in
  their doc comments.

JavaScript strings are embedded as Lean `String`s; `split("\n")`,
`join("\n")`, `startsWith`, and substring containment are given explicit
`List Char` level definitions (`jsSplitNl`, `joinNl`, `strStarts`,
`containsSub`) with JavaScript semantics, so every definition evaluates by
kernel reduction. ISO timestamp strings are represented by their epoch
milliseconds (`Date.parse` image), which is all the code compares.
-/

/-! ## String primitives (JavaScript semantics) -/

/-- Splitting on `"\n"`, accumulator-style: JS `s.split("\n")` at the
character-list level. `splitNlAux [] acc` closes the final segment, so the
result is always nonempty, and `"".split("\n") = [""]`. -/
def splitNlAux : List Char → List Char → List (List Char)
  | [], acc => [acc.reverse]
  | c :: rest, acc =>
    if c = '\n' then acc.reverse :: splitNlAux rest []
    else splitNlAux rest (c :: acc)

/-- JS `s.split("\n")`. -/
def jsSplitNl (s : String) : List String :=
  (splitNlAux s.data []).map String.mk

/-- JS `xs.join("\n")`. -/
def joinNl (xs : List String) : String :=
  String.intercalate "\n" xs

/-- JS `s.startsWith(p)` (character-prefix test). -/
def strStarts (s p : String) : Bool :=
  List.isPrefixOf p.data s.data

/-- Contiguous-segment test on character lists: `needle` occurs in `hay`. -/
def segOccurs (needle : List Char) : List Char → Bool
  | [] => needle.isEmpty
  | c :: rest => List.isPrefixOf needle (c :: rest) || segOccurs needle rest

/-- JS `s.includes(needle)` (contiguous-substring test). -/
def containsSub (s needle : String) : Bool :=
  segOccurs needle.data s.data

/-- Lowercase-hex-digit test: the character class `[0-9a-f]` of the
`validateJobId` regular expression. -/
def isHexLowerChar (c : Char) : Bool :=
  ('0' ≤ c && c ≤ '9') || ('a' ≤ c && c ≤ 'f')

/-! ## `src/tmux.ts`: `incrementalDiff` -/

/-- The descending overlap search of `incrementalDiff`: the JS loop
`for (let overlap = maxOverlap; overlap > 0; overlap--)`. At overlap `n + 1`
it compares `prevLines.slice(-(n+1)).join("\n")` with
`currLines.slice(0, n+1).join("\n")` and on a match returns
`currLines.slice(n+1).join("\n")`; falling out of the loop returns `curr`. -/
def diffGo (prevLines currLines : List String) (curr : String) : Nat → String
  | 0 => curr
  | n + 1 =>
    let prevTail := joinNl (prevLines.drop (prevLines.length - (n + 1)))
    let currHead := joinNl (currLines.take (n + 1))
    if prevTail = currHead then joinNl (currLines.drop (n + 1))
    else diffGo prevLines currLines curr n

/-- `incrementalDiff(prev, curr)` from `src/tmux.ts`: `if (!prev) return curr`,
then the descending overlap search over the two line lists, starting at
`Math.min(prevLines.length, currLines.length)`. -/
def incrementalDiff (prev curr : String) : String :=
  if prev = "" then curr
  else
    let prevLines := jsSplitNl prev
    let currLines := jsSplitNl curr
    diffGo prevLines currLines curr (min prevLines.length currLines.length)

/-! ## `src/tmux.ts`: job-id validation and session naming -/

/-- `validateJobId(jobId)` from `src/tmux.ts`:
`/^[0-9a-f]{1,16}$/.test(jobId)` — between 1 and 16 lowercase hex digits. -/
def validateJobId (jobId : String) : Bool :=
  jobId.data.all isHexLowerChar && 1 ≤ jobId.data.length && jobId.data.length ≤ 16

/-- The `config.tmuxPrefix` constant of `src/config.ts`. -/
def tmuxPrefix : String := "codex-agent"

/-- `getSessionName(jobId)` from `src/tmux.ts`: throws on an invalid job id,
otherwise returns `codex-agent-<jobId>`. The `throw` is embedded as
`Except.error`. -/
def getSessionName (jobId : String) : Except String String :=
  if validateJobId jobId then Except.ok (tmuxPrefix ++ "-" ++ jobId)
  else Except.error ("Invalid job ID: " ++ jobId)

/-! ## `src/claims.ts`: claim store -/

/-- A persisted claim record (`Claim` interface of `src/claims.ts`). -/
structure Claim where
  jobId : String
  pattern : String
  claimedAt : String
deriving DecidableEq, Repr

/-- The on-disk shape of the claim store (`ClaimsData`). -/
structure ClaimsData where
  claims : List Claim
deriving DecidableEq, Repr

/-- A filesystem mutation performed by the claim store. `writeFile path d`
stands for `writeFileSync(path, JSON.stringify(d, null, 2))` — the serialized
form is represented by the data itself, `JSON.stringify` being injective on
this shape — and `renameFile` stands for `renameSync`. -/
inductive FsOp
  | writeFile (path : String) (data : ClaimsData)
  | renameFile (src dst : String)
deriving DecidableEq, Repr

/-- `CLAIMS_FILE` of `src/claims.ts`: `join(HOME + "/.codex-agent", "claims.json")`. -/
def claimsFilePath (home : String) : String :=
  home ++ "/.codex-agent/claims.json"

/-- `loadClaims()` of `src/claims.ts`: read and parse the store file,
returning `{ claims: [] }` when the read or parse fails (missing file). The
filesystem is the map `fs`; `none` at the store path is the `catch` branch. -/
def loadClaims (home : String) (fs : String → Option ClaimsData) : ClaimsData :=
  match fs (claimsFilePath home) with
  | some d => d
  | none => { claims := [] }

/-- `saveClaims(data)` of `src/claims.ts` as its trace of filesystem
operations: a single direct `writeFileSync` to `CLAIMS_FILE`. -/
def saveClaimsOps (home : String) (data : ClaimsData) : List FsOp :=
  [FsOp.writeFile (claimsFilePath home) data]

/-- Effect of a trace of claim-store filesystem operations on the
path-to-content map. -/
def applyFsOps (ops : List FsOp) (fs : String → Option ClaimsData) :
    String → Option ClaimsData :=
  match ops with
  | [] => fs
  | FsOp.writeFile path d :: rest =>
    applyFsOps rest (fun p => if p = path then some d else fs p)
  | FsOp.renameFile src dst :: rest =>
    applyFsOps rest (fun p =>
      if p = dst then fs src else if p = src then none else fs p)

/-- `addClaim(jobId, pattern)` of `src/claims.ts`: load the store, push the
new record (with its `claimedAt` timestamp), save. Returns the updated data
together with the filesystem trace of the save. -/
def addClaim (home : String) (fs : String → Option ClaimsData)
    (jobId pattern claimedAt : String) : ClaimsData × List FsOp :=
  let data := loadClaims home fs
  let updated : ClaimsData :=
    { claims := data.claims ++ [{ jobId := jobId, pattern := pattern, claimedAt := claimedAt }] }
  (updated, saveClaimsOps home updated)

/-- `patternsOverlap(a, b)` of `src/claims.ts`. `a.replace(/\*.*$/, "")`
deletes everything from the first `*` to the end, and `.replace(/\{.*$/, "")`
then deletes everything from the first `{`; the survivors are compared by
`startsWith` in both directions, with an exact-match fallback. -/
def stripGlobTail (s : String) : String :=
  String.mk ((s.data.takeWhile (fun c => c ≠ '*')).takeWhile (fun c => c ≠ '{'))

/-- The overlap test itself. -/
def patternsOverlap (a b : String) : Bool :=
  let prefixA := stripGlobTail a
  let prefixB := stripGlobTail b
  strStarts prefixA prefixB || strStarts prefixB prefixA || a = b

/-- `checkOverlaps(jobId, pattern)` of `src/claims.ts`: walk the stored
claims, skip those belonging to `jobId` itself, and keep those whose pattern
overlaps the queried `pattern`. -/
def checkOverlaps (data : ClaimsData) (jobId pattern : String) : List Claim :=
  data.claims.filter (fun c => c.jobId ≠ jobId && patternsOverlap pattern c.pattern)

/-- `removeClaims(jobId)` of `src/claims.ts`. -/
def removeClaims (data : ClaimsData) (jobId : String) : ClaimsData :=
  { claims := data.claims.filter (fun c => c.jobId ≠ jobId) }

/-- `cleanStaleClaims(activeJobIds)` of `src/claims.ts`: keep exactly the
claims whose job id is in the active set, and return the number removed. -/
def cleanStaleClaims (data : ClaimsData) (activeJobIds : List String) :
    ClaimsData × Nat :=
  let kept := data.claims.filter (fun c => activeJobIds.contains c.jobId)
  ({ claims := kept }, data.claims.length - kept.length)

/-! ## Job records and the status refresher

`src/jobs.ts` is not part of the published sources (only `tests/jobs.test.ts`
and the CLI callers are), so the registry operations are modelled from the
specification, constrained by the shapes the tests exercise. -/

/-- The job status enumeration (spec §3): `completed`, `failed`, `cancelled`
are terminal. -/
inductive JobStatus
  | pending
  | running
  | completed
  | failed
  | cancelled
deriving DecidableEq, Repr

/-- Terminal statuses never revert (spec §3). -/
def JobStatus.isTerminal : JobStatus → Bool
  | JobStatus.completed => true
  | JobStatus.failed => true
  | JobStatus.cancelled => true
  | _ => false

/-- A job record (spec §3). Timestamps are epoch milliseconds (the image of
the stored ISO strings under `Date.parse`); `completedAt = none` while the
job has not reached a terminal state. -/
structure Job where
  id : String
  status : JobStatus
  prompt : String
  model : String
  reasoningEffort : String
  sandbox : String
  cwd : String
  createdAt : Nat
  startedAt : Option Nat := none
  completedAt : Option Nat := none
  tmuxSession : Option String := none
  result : Option String := none
  error : Option String := none
deriving DecidableEq, Repr

/-- Modelled from the spec: the completion marker, "a fixed literal string
appended to the transcript by the session wrapper after the supervised
process exits" (spec §6); its literal text appears in `createSession` of
`src/tmux.ts` and in `tests/jobs.test.ts`. -/
def completionMarker : String :=
  "[codex-agent: Session complete. Press Enter to close.]"

/-- Modelled from the spec: the "fixed set of error signatures (explicit
error-prefixed lines, non-zero exit phrases, disk-full phrases, etc.)" that
`refreshJobStatus` scans for (spec §4.3, heuristic 3); `src/jobs.ts` is not
in the published sources. The exact members beyond those the tests pin down
("Error: request failed" must match) are representative. -/
def errorSignatures : List String :=
  ["Error:", "error:", "exited with code", "ENOSPC", "No space left on device",
   "command not found"]

/-- What the session adapter reports about a running job's session at refresh
time: whether the session is still resolvable, the captured pane output, the
full scrollback, and the best-effort tail of the transcript log file. -/
structure SessionView where
  resolvable : Bool
  pane : String
  fullHistory : String
  transcriptTail : String
deriving DecidableEq, Repr

/-- The signatures of `errorSignatures` found in the captured output. -/
def matchedSignatures (output : String) : List String :=
  errorSignatures.filter (fun sig => containsSub output sig)

/-- Modelled from the spec: `refreshJobStatus` of `src/jobs.ts` (spec §4.3),
which is not in the published sources. Evaluated only for running jobs, in
this order: (1) session no longer resolvable → completed with the transcript
tail as result; (2) captured output contains the completion marker →
completed with the full scrollback as result; (3) output matches error
signatures → failed with `"Detected: "` plus the joined matches; (4)
otherwise no transition. `now` is the refresh timestamp recorded in
`completedAt`. -/
def refreshJobStatus (job : Job) (view : SessionView) (now : Nat) : Job :=
  if job.status ≠ JobStatus.running then job
  else if view.resolvable = false then
    { job with
        status := JobStatus.completed
        result := some view.transcriptTail
        completedAt := some now }
  else if containsSub view.pane completionMarker then
    { job with
        status := JobStatus.completed
        result := some view.fullHistory
        completedAt := some now }
  else
    let matched := matchedSignatures view.pane
    if matched.isEmpty then job
    else
      { job with
          status := JobStatus.failed
          error := some ("Detected: " ++ String.intercalate ", " matched)
          completedAt := some now }

/-! ## Kill and cleanup -/

/-- The combined registry-plus-claim-store state `killJob` mutates. -/
structure OrchState where
  jobs : List Job
  claims : List Claim
deriving DecidableEq, Repr

/-- Modelled from the spec: `killJob(id)` of `src/jobs.ts` (spec §4.3 and §5),
which is not in the published sources. It destroys the tmux session if
present — best-effort, so the session-kill outcome enters only as the
`sessionKillOk` flag — but always force-sets the record to `cancelled` with
the fixed message `"Cancelled by user"` and releases all of the job's claims.
Returns `none` (the CLI's `false`) when no record exists. -/
def killJob (st : OrchState) (id : String) (sessionKillOk : Bool) (now : Nat) :
    Option OrchState :=
  match st.jobs.find? (fun j => j.id = id) with
  | none => none
  | some _ =>
    let _ := sessionKillOk
    some
      { jobs := st.jobs.map (fun j =>
          if j.id = id then
            { j with
                status := JobStatus.cancelled
                error := some "Cancelled by user"
                completedAt := some now }
          else j)
        claims := st.claims.filter (fun c => c.jobId ≠ id) }

/-- Milliseconds per day, as in `maxAgeDays * 24 * 60 * 60 * 1000`. -/
def msPerDay : Nat := 86400000

/-- The record age reference used by the retention sweep: the completion
timestamp when the record has one, its creation timestamp otherwise. -/
def jobRefTime (j : Job) : Nat :=
  j.completedAt.getD j.createdAt

/-- A record the sweep removes: terminal status and older than the
threshold. -/
def sweepable (maxAgeDays now : Nat) (j : Job) : Bool :=
  j.status.isTerminal && maxAgeDays * msPerDay < now - jobRefTime j

/-- Modelled from the spec: `cleanupOldJobs(maxAgeDays)` of `src/jobs.ts`
(spec §4.2/§3), which is not in the published sources. Walks the records,
deletes each terminal-state record older than the threshold, counts the
deletions, and leaves everything else untouched. -/
def cleanupOldJobs (jobs : List Job) (maxAgeDays now : Nat) : List Job × Nat :=
  match jobs with
  | [] => ([], 0)
  | j :: rest =>
    let r := cleanupOldJobs rest maxAgeDays now
    if sweepable maxAgeDays now j then (r.1, r.2 + 1)
    else (j :: r.1, r.2)

/-! ## `src/tmux.ts`: session adapter operations

The external `tmux` binary is an oracle: `sessionCheck name` is the exit
status of `tmux has-session -t name` (`sessionExists`), `run args` the
outcome of `runTmux` (non-zero exit throws, embedded as `Except.error` with
the stderr text), and `runOutput args` the outcome of `runTmuxOutput`. -/

structure TmuxEnv where
  sessionCheck : String → Bool
  run : List String → Except String Unit
  runOutput : List String → Except String String

/-- `sessionExists(sessionName)` of `src/tmux.ts`. -/
def sessionExists (env : TmuxEnv) (sessionName : String) : Bool :=
  env.sessionCheck sessionName

/-- `safeSendText(sessionName, text)` of `src/tmux.ts`: write the text to a
temporary buffer file, `tmux load-buffer`, then `tmux paste-buffer`; either
`runTmux` call may throw. The temp-file write itself cannot fail in the
model. -/
def safeSendText (env : TmuxEnv) (sessionName : String) : Except String Unit :=
  match env.run ["load-buffer"] with
  | Except.error e => Except.error e
  | Except.ok _ => env.run ["paste-buffer", "-t", sessionName]

/-- `sendMessage(sessionName, message)` of `src/tmux.ts`: `false` when the
session does not exist; otherwise paste the message and send `Enter`,
catching any throw as `false`. -/
def sendMessage (env : TmuxEnv) (sessionName : String) : Bool :=
  if sessionExists env sessionName = false then false
  else
    match safeSendText env sessionName with
    | Except.error _ => false
    | Except.ok _ =>
      match env.run ["send-keys", "-t", sessionName, "Enter"] with
      | Except.error _ => false
      | Except.ok _ => true

/-- `ALLOWED_CONTROL_KEYS` of `src/tmux.ts`. -/
def allowedControlKeys : List String := ["C-c", "C-z", "Enter", "Escape"]

/-- `sendControl(sessionName, key)` of `src/tmux.ts`: reject keys outside the
allow-list, then the existence check, then `send-keys` with a catch. -/
def sendControl (env : TmuxEnv) (sessionName key : String) : Bool :=
  if (allowedControlKeys.contains key) = false then false
  else if sessionExists env sessionName = false then false
  else
    match env.run ["send-keys", "-t", sessionName, key] with
    | Except.error _ => false
    | Except.ok _ => true

/-- The argument list `capturePane` builds: `capture-pane -t name -p`, plus
`-S start` when a start line is given. -/
def capturePaneArgs (sessionName : String) (start : Option Int) : List String :=
  ["capture-pane", "-t", sessionName, "-p"] ++
    (match start with
     | some s => ["-S", toString s]
     | none => [])

/-- `capturePane(sessionName, {lines?, start?})` of `src/tmux.ts`: `null`
when the session does not exist or the capture throws; otherwise the output,
cut to its last `lines` lines when `options.lines` is truthy (`lines = 0` is
falsy in JS and leaves the output whole). -/
def capturePane (env : TmuxEnv) (sessionName : String)
    (lines : Option Nat) (start : Option Int) : Option String :=
  if sessionExists env sessionName = false then none
  else
    match env.runOutput (capturePaneArgs sessionName start) with
    | Except.error _ => none
    | Except.ok output =>
      match lines with
      | some l =>
        if l = 0 then some output
        else
          let allLines := jsSplitNl output
          some (joinNl (allLines.drop (allLines.length - l)))
      | none => some output

/-- `captureFullHistory(sessionName)` of `src/tmux.ts`: capture from the
start of history (`-S -`), `null` on a missing session or a throw. -/
def captureFullHistory (env : TmuxEnv) (sessionName : String) : Option String :=
  if sessionExists env sessionName = false then none
  else
    match env.runOutput ["capture-pane", "-t", sessionName, "-p", "-S", "-"] with
    | Except.error _ => none
    | Except.ok output => some output

/-- `killSession(sessionName)` of `src/tmux.ts`: `false` on a missing session
or when `kill-session` throws. -/
def killSession (env : TmuxEnv) (sessionName : String) : Bool :=
  if sessionExists env sessionName = false then false
  else
    match env.run ["kill-session", "-t", sessionName] with
    | Except.error _ => false
    | Except.ok _ => true

/-- The session metadata record (`TmuxSession` of `src/tmux.ts`). `created`
keeps the parsed epoch seconds (`0` for an unparsable field, matching
`new Date(0)`). -/
structure TmuxSession where
  name : String
  attached : Bool
  windows : Nat
  created : Nat
deriving DecidableEq, Repr

/-- One line of `list-sessions` output, split on `|` and destructured into
the first four fields; a line with fewer fields maps to `null` and is
filtered out, and unparsable numeric fields fall back to `0`. -/
def parseSessionLine (line : String) : Option TmuxSession :=
  match line.splitOn "|" with
  | name :: attached :: windows :: created :: _ =>
    some
      { name := name
        attached := attached = "1"
        windows := (windows.toNat?).getD 0
        created := (created.toNat?).getD 0 }
  | _ => none

/-- JS `String.prototype.trim` limited to the newline framing `list-sessions`
output actually carries. -/
def trimNl (s : String) : String :=
  String.mk ((s.data.dropWhile (fun c => c = '\n')).reverse.dropWhile
    (fun c => c = '\n')).reverse

/-- `listSessions()` of `src/tmux.ts`: run `list-sessions` with a format
string, keep the lines starting with the `codex-agent` prefix, parse each,
drop the malformed ones; any throw yields the empty list. -/
def listSessions (env : TmuxEnv) : List TmuxSession :=
  match env.runOutput ["list-sessions", "-F",
      "#{session_name}|#{session_attached}|#{session_windows}|#{session_created}"] with
  | Except.error _ => []
  | Except.ok output =>
    ((jsSplitNl (trimNl output)).filter (fun line => strStarts line tmuxPrefix)).filterMap
      parseSessionLine

/-! ## Transcript parser

`src/session-parser.ts` is not part of the published sources (only
`tests/session-parser.test.ts` and the CLI callers are); the structured-log
parsing is modelled from the specification. -/

/-- Modelled from the spec: one structured event-log record, "a tagged union
matched exhaustively by record kind with an explicit ignore arm for
unrecognized kinds" (spec §9). `tokenCount` carries the running totals and
the context-window size, `agentMessage` the latest message text, and
`applyPatch` the patch argument body of a patch-application record. -/
inductive SessionRecord
  | tokenCount (input output window : Nat)
  | agentMessage (message : String)
  | applyPatch (body : String)
  | other
deriving DecidableEq, Repr

/-- The token tally of a parsed session (the `tokens` object the tests
compare against). -/
structure TokenInfo where
  input : Nat
  output : Nat
  context_window : Nat
  context_used_pct : Nat
deriving DecidableEq, Repr

/-- Diff statistics: the added/updated/deleted file-path lists. -/
structure DiffStats where
  files_added : List String := []
  files_updated : List String := []
  files_deleted : List String := []
deriving DecidableEq, Repr

/-- The result of parsing a structured event log. -/
structure ParsedSession where
  tokens : Option TokenInfo := none
  summary : Option String := none
  diff_stats : DiffStats := {}
deriving DecidableEq, Repr

/-- Modelled from the spec: the used-percentage computation of
`parseJsonlSession` (spec §4.4, §8). The §4.4 formula
`round(100 × (input + output) / window)` is contradicted by the repository's
own fixture (`tests/session-parser.test.ts`: input 100, output 40, window
2000 must report 5, not 7) and by the spec's §8 example, both of which pin
the numerator to the input tokens alone: `Math.round(100 * input / window)`,
here in exact integer arithmetic — `(200 i + w) / (2 w)` is round-half-up of
`100 i / w` for `w > 0`. -/
def contextUsedPct (input window : Nat) : Nat :=
  (200 * input + window) / (2 * window)

/-- Exact-match first-occurrence de-duplicating append: push the path unless
it is already in the list. -/
def pushUnique (xs : List String) (x : String) : List String :=
  if xs.contains x then xs else xs ++ [x]

/-- Modelled from the spec: the patch-body scan of a patch-application
record (spec §4.4): walk the argument body line by line; an `Add File:` /
`Update File:` / `Delete File:` marker line appends the literal path that
follows the marker to the corresponding list, with first-occurrence
exact-match de-duplication. -/
def scanPatchLine (stats : DiffStats) (line : String) : DiffStats :=
  if strStarts line "*** Add File: " then
    { stats with files_added :=
        pushUnique stats.files_added (String.mk (line.data.drop 14)) }
  else if strStarts line "*** Update File: " then
    { stats with files_updated :=
        pushUnique stats.files_updated (String.mk (line.data.drop 17)) }
  else if strStarts line "*** Delete File: " then
    { stats with files_deleted :=
        pushUnique stats.files_deleted (String.mk (line.data.drop 17)) }
  else stats

/-- The line-by-line scan of one patch body. -/
def scanPatchBody (stats : DiffStats) (body : String) : DiffStats :=
  (jsSplitNl body).foldl scanPatchLine stats

/-- Modelled from the spec: processing of one structured record (spec §4.4):
token-count records replace the running tally, message records replace the
running summary with the latest text, patch-application records extend the
diff statistics, unrecognized records are ignored. -/
def applyRecord (st : ParsedSession) : SessionRecord → ParsedSession
  | SessionRecord.tokenCount i o w =>
    let info : TokenInfo :=
      { input := i
        output := o
        context_window := w
        context_used_pct := contextUsedPct i w }
    { st with tokens := some info }
  | SessionRecord.agentMessage m => { st with summary := some m }
  | SessionRecord.applyPatch body =>
    { st with diff_stats := scanPatchBody st.diff_stats body }
  | SessionRecord.other => st

/-- Modelled from the spec: `parseJsonlSession` of `src/session-parser.ts`
over the already-discriminated record list. -/
def parseJsonlSession (records : List SessionRecord) : ParsedSession :=
  records.foldl applyRecord {}

/-! ## Spec-side predicates and concrete fixtures -/

/-- A one-claim store, as in the overlap test of `tests/claims.test.ts`. -/
def claimsStoreEx : ClaimsData :=
  { claims := [{ jobId := "job-a", pattern := "src/auth/**",
                 claimedAt := "2026-01-01T00:00:00.000Z" }] }

/-- The write-discipline the specification claims for `saveClaims`: first a
temporary file is written, then it is renamed over the store file. -/
def atomicTempRenameShape (ops : List FsOp) (target : String) : Prop :=
  ∃ tmp d, tmp ≠ target ∧ ops = [FsOp.writeFile tmp d, FsOp.renameFile tmp target]

/-- A one-running-job state with one claim of its own and one foreign claim,
as in the kill test of `tests/jobs.test.ts`. -/
def stEx : OrchState :=
  { jobs := [{ id := "c0ffee12", status := JobStatus.running,
               prompt := "Test prompt", model := "gpt-5.3-codex",
               reasoningEffort := "xhigh", sandbox := "workspace-write",
               cwd := "/work", createdAt := 1735689600000 }]
    claims := [{ jobId := "c0ffee12", pattern := "src/**",
                 claimedAt := "2026-01-01T00:00:00.000Z" },
               { jobId := "job-b", pattern := "docs/**",
                 claimedAt := "2026-01-01T00:00:01.000Z" }] }

/-- A running job record, as in the refresh tests of `tests/jobs.test.ts`. -/
def jobRun : Job :=
  { id := "4a2b3c4d", status := JobStatus.running, prompt := "Test prompt",
    model := "gpt-5.3-codex", reasoningEffort := "xhigh",
    sandbox := "workspace-write", cwd := "/work", createdAt := 0,
    tmuxSession := some "codex-agent-4a2b3c4d" }

/-- Session view of a vanished session with a transcript tail. -/
def viewGone : SessionView :=
  { resolvable := false, pane := "", fullHistory := "",
    transcriptTail := "session output" }

/-- Session view whose captured pane shows the completion marker. -/
def viewMarker : SessionView :=
  { resolvable := true,
    pane := "[codex-agent: Session complete. Press Enter to close.]",
    fullHistory := "full history output", transcriptTail := "" }

/-- Session view whose captured pane shows an error signature. -/
def viewErr : SessionView :=
  { resolvable := true, pane := "Error: request failed", fullHistory := "",
    transcriptTail := "" }

/-- An environment in which every session is absent and every external call
exits non-zero. -/
def deadEnv : TmuxEnv :=
  { sessionCheck := fun _ => false
    run := fun _ => Except.error "tmux failed"
    runOutput := fun _ => Except.error "tmux failed" }

/-! ## Spec-side patch-scan characterizations -/

/-- The literal path an `Add File:` marker line contributes, mirroring the
branch order of `scanPatchLine`. -/
def addPathOf (line : String) : Option String :=
  if strStarts line "*** Add File: " then some (String.mk (line.data.drop 14))
  else none

/-- The literal path an `Update File:` marker line contributes. -/
def updatePathOf (line : String) : Option String :=
  if strStarts line "*** Add File: " then none
  else if strStarts line "*** Update File: " then
    some (String.mk (line.data.drop 17))
  else none

/-- The literal path a `Delete File:` marker line contributes. -/
def deletePathOf (line : String) : Option String :=
  if strStarts line "*** Add File: " then none
  else if strStarts line "*** Update File: " then none
  else if strStarts line "*** Delete File: " then
    some (String.mk (line.data.drop 17))
  else none

/-- First-occurrence de-duplication: keep each path at its first position and
drop later exact duplicates. -/
def keepFirst : List String → List String
  | [] => []
  | x :: rest => x :: (keepFirst rest).filter (fun y => y ≠ x)

/-! # Theorems -/

/-! ## C10 — `checkOverlaps` never reports a job's own claims -/

/-- C10: for every claims-store state, job id and pattern, every claim
returned by `checkOverlaps` belongs to a job other than the querying one: a
job's own claims are never reported as overlapping with its new pattern. -/
theorem checkOverlaps_excludes_own (data : ClaimsData) (jobId pat : String)
    (c : Claim) (hc : c ∈ checkOverlaps data jobId pat) : c.jobId ≠ jobId := by
  have h := (List.mem_filter.mp hc).2
  simp only [Bool.and_eq_true, decide_eq_true_eq] at h
  exact h.1

/-- Witness for C10: on the one-claim store, `checkOverlaps` for a different
job actually returns that claim, and the theorem applies to it. -/
theorem checkOverlaps_excludes_own_witness :
    ({ jobId := "job-a", pattern := "src/auth/**",
       claimedAt := "2026-01-01T00:00:00.000Z" } : Claim)
        ∈ checkOverlaps claimsStoreEx "job-b" "src/auth/login.ts" ∧
    ({ jobId := "job-a", pattern := "src/auth/**",
       claimedAt := "2026-01-01T00:00:00.000Z" } : Claim).jobId ≠ "job-b" :=
  ⟨by decide,
   checkOverlaps_excludes_own claimsStoreEx "job-b" "src/auth/login.ts" _ (by decide)⟩

/-! ## C2 — job-id validation -/

/-- C2: the claim says the validator accepts exactly the 8-character
hexadecimal strings and rejects every other length; `validateJobId` of
`src/tmux.ts` — whose own doc comment reads "must be hex string, 8 chars" —
instead matches `/^[0-9a-f]{1,16}$/`: the 3-character `"abc"` and the
16-character string below are accepted, and the uppercase 8-character
`"ABCDEF12"` (which `tests/jobs.test.ts` requires the registry validator
`assertValidJobId` to accept) is rejected. The path-separator and
parent-directory rejections do hold. -/
theorem validateJobId_wrong_length_accepted :
    validateJobId "abc" = true ∧
    ("abc" : String).data.length = 3 ∧
    validateJobId "0123456789abcdef" = true ∧
    ("0123456789abcdef" : String).data.length = 16 ∧
    validateJobId "ABCDEF12" = false ∧
    validateJobId "abcdef12" = true ∧
    validateJobId "../abcd1234" = false ∧
    validateJobId "abcd1234/.." = false ∧
    validateJobId "ab/cd1234" = false ∧
    validateJobId "" = false := by
  decide

/-! ## C3 — claim-store write discipline -/

/-- Counterexample for C3: at a concrete home directory, empty filesystem and
concrete claim, the trace `addClaim` emits is a single direct write, not a
write-temp-then-rename pair. -/
theorem addClaim_not_temp_rename :
    ¬ atomicTempRenameShape
        (addClaim "/home/user" (fun _ => none) "job-a" "src/**"
          "2026-01-01T00:00:00.000Z").2
        (claimsFilePath "/home/user") := by
  rintro ⟨tmp, d, -, h⟩
  simp [addClaim, saveClaimsOps] at h

/-- C3 (amended): `addClaim` persists the updated claim list — the prior
claims with the new record appended — with a single direct whole-file
`writeFileSync` of the store file; no temporary file is written and no rename
is performed, and replaying the trace on the filesystem leaves the full
updated list at the store path. -/
theorem addClaim_direct_write (home jobId pat ts : String)
    (fs : String → Option ClaimsData) :
    (addClaim home fs jobId pat ts).1.claims
        = (loadClaims home fs).claims
            ++ [{ jobId := jobId, pattern := pat, claimedAt := ts }] ∧
    (addClaim home fs jobId pat ts).2
        = [FsOp.writeFile (claimsFilePath home) (addClaim home fs jobId pat ts).1] ∧
    ((addClaim home fs jobId pat ts).2.all fun op =>
        match op with
        | FsOp.renameFile _ _ => false
        | FsOp.writeFile _ _ => true) = true ∧
    applyFsOps (addClaim home fs jobId pat ts).2 fs (claimsFilePath home)
        = some (addClaim home fs jobId pat ts).1 := by
  refine ⟨rfl, rfl, rfl, ?_⟩
  simp [addClaim, saveClaimsOps, applyFsOps]

/-! ## C6 — retention sweep -/

/-- C6: `cleanupOldJobs` removes exactly the terminal-status records older
than the threshold and returns the count removed; every running or pending
record, and every terminal record younger than the threshold, is kept, in
its original position. -/
theorem cleanupOldJobs_spec (jobs : List Job) (maxAgeDays now : Nat) :
    (cleanupOldJobs jobs maxAgeDays now).1
        = jobs.filter (fun j => !(sweepable maxAgeDays now j)) ∧
    (cleanupOldJobs jobs maxAgeDays now).2
        = (jobs.filter (fun j => sweepable maxAgeDays now j)).length ∧
    (∀ j : Job, sweepable maxAgeDays now j = true ↔
        (j.status.isTerminal = true ∧ maxAgeDays * msPerDay < now - jobRefTime j)) := by
  refine ⟨?_, ?_, ?_⟩
  · induction jobs with
    | nil => rfl
    | cons j rest ih =>
      by_cases h : sweepable maxAgeDays now j = true
      · simp [cleanupOldJobs, h, List.filter_cons, ih]
      · simp only [Bool.not_eq_true] at h
        simp [cleanupOldJobs, h, List.filter_cons, ih]
  · induction jobs with
    | nil => rfl
    | cons j rest ih =>
      by_cases h : sweepable maxAgeDays now j = true
      · simp [cleanupOldJobs, h, List.filter_cons, ih]
      · simp only [Bool.not_eq_true] at h
        simp [cleanupOldJobs, h, List.filter_cons, ih]
  · intro j
    simp [sweepable, Bool.and_eq_true, decide_eq_true_eq]

/-! ## C7 — incremental diff -/

/-- `splitNlAux` always produces at least the final segment. -/
theorem splitNlAux_ne_nil (l acc : List Char) : splitNlAux l acc ≠ [] := by
  induction l generalizing acc with
  | nil => simp [splitNlAux]
  | cons c rest ih =>
    by_cases h : c = '\n'
    · simp [splitNlAux, h]
    · simpa [splitNlAux, h] using ih (c :: acc)

/-- A split string always has at least one line. -/
theorem jsSplitNl_ne_nil (s : String) : jsSplitNl s ≠ [] := by
  simpa [jsSplitNl] using splitNlAux_ne_nil s.data []

theorem joinNl_nil : joinNl ([] : List String) = "" := rfl

/-- If no overlap up to `n` matches, the descending search falls through and
returns `curr`. -/
theorem diffGo_no_match (P C : List String) (curr : String) :
    ∀ n, (∀ k, 1 ≤ k → k ≤ n →
        joinNl (P.drop (P.length - k)) ≠ joinNl (C.take k)) →
      diffGo P C curr n = curr := by
  intro n
  induction n with
  | zero => intro _; rfl
  | succ m ih =>
    intro h
    have hne := h (m + 1) (by omega) (le_refl _)
    simp only [diffGo]
    rw [if_neg hne]
    exact ih (fun k h1 h2 => h k h1 (by omega))

/-- If overlap `k` matches and no larger overlap up to `n` does, the
descending search stops at `k` and returns the remainder of `curr` after
`k` lines. -/
theorem diffGo_match (P C : List String) (curr : String) :
    ∀ n k, 1 ≤ k → k ≤ n →
      joinNl (P.drop (P.length - k)) = joinNl (C.take k) →
      (∀ j, k < j → j ≤ n →
        joinNl (P.drop (P.length - j)) ≠ joinNl (C.take j)) →
      diffGo P C curr n = joinNl (C.drop k) := by
  intro n
  induction n with
  | zero => intro k h1 h2 _ _; omega
  | succ m ih =>
    intro k h1 h2 hmatch hmax
    by_cases he : k = m + 1
    · subst he
      simp only [diffGo]
      rw [if_pos hmatch]
    · have hk : k ≤ m := by omega
      have hne : joinNl (P.drop (P.length - (m + 1))) ≠ joinNl (C.take (m + 1)) :=
        hmax (m + 1) (by omega) (le_refl _)
      simp only [diffGo]
      rw [if_neg hne]
      exact ih k h1 hk hmatch (fun j hj1 hj2 => hmax j hj1 (by omega))

/-- C7: `incrementalDiff` searches overlaps from the full overlap length down
to zero and returns the remainder of `curr` after the largest suffix-prefix
match: an empty `prev` returns `curr`; identical non-empty snapshots return
`""`; when no overlap matches, `curr` is returned unchanged; when overlap `k`
matches and no larger one does, the result is `curr` minus its first `k`
lines; and the overlapping windows `line1..line4` / `line3..line6` yield
exactly `"line5\nline6"`. -/
theorem incrementalDiff_spec :
    (∀ curr, incrementalDiff "" curr = curr) ∧
    (∀ x, x ≠ "" → incrementalDiff x x = "") ∧
    (∀ prev curr, prev ≠ "" →
      (∀ k, 1 ≤ k → k ≤ min (jsSplitNl prev).length (jsSplitNl curr).length →
        joinNl ((jsSplitNl prev).drop ((jsSplitNl prev).length - k))
          ≠ joinNl ((jsSplitNl curr).take k)) →
      incrementalDiff prev curr = curr) ∧
    (∀ prev curr k, prev ≠ "" → 1 ≤ k →
      k ≤ min (jsSplitNl prev).length (jsSplitNl curr).length →
      joinNl ((jsSplitNl prev).drop ((jsSplitNl prev).length - k))
        = joinNl ((jsSplitNl curr).take k) →
      (∀ j, k < j → j ≤ min (jsSplitNl prev).length (jsSplitNl curr).length →
        joinNl ((jsSplitNl prev).drop ((jsSplitNl prev).length - j))
          ≠ joinNl ((jsSplitNl curr).take j)) →
      incrementalDiff prev curr = joinNl ((jsSplitNl curr).drop k)) ∧
    incrementalDiff "line1\nline2\nline3\nline4" "line3\nline4\nline5\nline6"
      = "line5\nline6" := by
  refine ⟨?_, ?_, ?_, ?_, ?_⟩
  · intro curr
    simp [incrementalDiff]
  · intro x hx
    have hlen : 0 < (jsSplitNl x).length :=
      List.length_pos.mpr (jsSplitNl_ne_nil x)
    simp only [incrementalDiff]
    rw [if_neg hx, min_self]
    have hmatch : joinNl ((jsSplitNl x).drop
          ((jsSplitNl x).length - (jsSplitNl x).length))
        = joinNl ((jsSplitNl x).take (jsSplitNl x).length) := by
      rw [Nat.sub_self, List.drop_zero, List.take_length]
    have := diffGo_match (jsSplitNl x) (jsSplitNl x) x
      (jsSplitNl x).length (jsSplitNl x).length hlen (le_refl _) hmatch
      (fun j hj1 hj2 => by omega)
    rw [this, List.drop_length, joinNl_nil]
  · intro prev curr hprev hno
    simp only [incrementalDiff]
    rw [if_neg hprev]
    exact diffGo_no_match _ _ _ _ hno
  · intro prev curr k hprev h1 h2 hmatch hmax
    simp only [incrementalDiff]
    rw [if_neg hprev]
    exact diffGo_match _ _ _ _ k h1 h2 hmatch hmax
  · decide

/-- Witness for C7: identical non-empty snapshots and a non-overlapping pair,
through the theorem. -/
theorem incrementalDiff_spec_witness :
    ("same\ncontent" : String) ≠ "" ∧
    incrementalDiff "same\ncontent" "same\ncontent" = "" ∧
    ("a\nb\nc" : String) ≠ "" ∧
    incrementalDiff "a\nb\nc" "x\ny\nz" = "x\ny\nz" := by
  refine ⟨by decide, incrementalDiff_spec.2.1 "same\ncontent" (by decide),
    by decide, incrementalDiff_spec.2.2.1 "a\nb\nc" "x\ny\nz" (by decide) ?_⟩
  intro k h1 h2
  have h3 : min (jsSplitNl "a\nb\nc").length (jsSplitNl "x\ny\nz").length = 3 := by
    decide
  rw [h3] at h2
  interval_cases k <;> decide

/-! ## C4 — token used-percentage -/

/-- The integer-arithmetic percentage agrees with round-half-up of the exact
rational `100 i / w` whenever the window is positive. -/
theorem contextUsedPct_eq_round (i w : Nat) (hw : 0 < w) :
    contextUsedPct i w = (round ((100 * i : ℚ) / w)).toNat := by
  have hw' : (w : ℚ) ≠ 0 := by exact_mod_cast hw.ne'
  have hq : (100 * i : ℚ) / w + 1 / 2
      = ((200 * i + w : ℕ) : ℚ) / ((2 * w : ℕ) : ℚ) := by
    push_cast
    field_simp
    ring
  rw [round_eq, hq, Int.floor_toNat, Nat.floor_div_eq_div, contextUsedPct]

/-- Counterexample for C4: on the repository's own fixture (input 100, output
40, window 2000) the parser reports 5 — as `tests/session-parser.test.ts` and
the spec's §8 example require — while the claimed formula
`round(100 × (input + output) / window)` gives 7. -/
theorem parseJsonl_token_pct_counterexample :
    (parseJsonlSession [SessionRecord.tokenCount 100 40 2000]).tokens
      = some { input := 100, output := 40, context_window := 2000,
               context_used_pct := 5 } ∧
    (round ((100 * (100 + 40) : ℚ) / 2000)).toNat = 7 ∧
    ¬ (parseJsonlSession [SessionRecord.tokenCount 100 40 2000]).tokens
      = some { input := 100, output := 40, context_window := 2000,
               context_used_pct := (round ((100 * (100 + 40) : ℚ) / 2000)).toNat } := by
  have h7 : (round ((100 * (100 + 40) : ℚ) / 2000)).toNat = 7 := by
    norm_num [round_eq]
    decide
  refine ⟨by decide, h7, ?_⟩
  rw [h7]
  decide

/-- C4 (amended): processing a structured token-count record carrying input
`i`, output `o` and context-window size `w > 0` makes the parser report the
tally with used-percentage `round (100 i / w)` — the output tokens do not
enter the numerator. -/
theorem parseJsonl_token_pct (pre : List SessionRecord) (i o w : Nat)
    (hw : 0 < w) :
    (parseJsonlSession (pre ++ [SessionRecord.tokenCount i o w])).tokens
      = some { input := i, output := o, context_window := w,
               context_used_pct := (round ((100 * i : ℚ) / w)).toNat } := by
  rw [parseJsonlSession, List.foldl_append]
  simp [applyRecord, contextUsedPct_eq_round i w hw]

/-- Witness for C4: the tally of the test fixture (input 100, output 40,
window 2000) reports 5 percent. -/
theorem parseJsonl_token_pct_witness :
    0 < 2000 ∧
    (parseJsonlSession [SessionRecord.tokenCount 100 40 2000]).tokens
      = some { input := 100, output := 40, context_window := 2000,
               context_used_pct := (round ((100 * 100 : ℚ) / 2000)).toNat } ∧
    contextUsedPct 100 2000 = 5 :=
  ⟨by decide,
   by simpa using parseJsonl_token_pct [] 100 40 2000 (by decide),
   by decide⟩

/-! ## C5 — kill is unconditional at the registry level -/

/-- C5: for every registry-and-claims state holding a record for `id`,
`killJob` marks that record cancelled with the fixed message
`"Cancelled by user"` and removes all of the job's claims, never leaving the
record in status running — and the registry outcome is identical whether or
not destroying the underlying tmux session succeeded. -/
theorem killJob_spec (st : OrchState) (id : String) (ok1 ok2 : Bool) (now : Nat)
    (hex : (st.jobs.find? (fun j => j.id = id)).isSome) :
    ∃ st', killJob st id ok1 now = some st' ∧
      (∃ j ∈ st'.jobs, j.id = id) ∧
      (∀ j ∈ st'.jobs, j.id = id →
        j.status = JobStatus.cancelled ∧ j.error = some "Cancelled by user" ∧
        j.status ≠ JobStatus.running) ∧
      (∀ c ∈ st'.claims, c.jobId ≠ id) ∧
      killJob st id ok1 now = killJob st id ok2 now := by
  obtain ⟨job, hfind⟩ := Option.isSome_iff_exists.mp hex
  have hjid : job.id = id := by
    have := List.find?_some hfind
    simpa using this
  have hmem : job ∈ st.jobs := List.mem_of_find?_eq_some hfind
  have hk : killJob st id ok1 now = some
      { jobs := st.jobs.map (fun j =>
          if j.id = id then
            { j with
                status := JobStatus.cancelled
                error := some "Cancelled by user"
                completedAt := some now }
          else j)
        claims := st.claims.filter (fun c => c.jobId ≠ id) } := by
    simp only [killJob, hfind]
  refine ⟨_, hk, ?_, ?_, ?_, ?_⟩
  · refine ⟨{ job with
        status := JobStatus.cancelled
        error := some "Cancelled by user"
        completedAt := some now }, ?_, hjid⟩
    exact List.mem_map.mpr ⟨job, hmem, by simp [hjid]⟩
  · intro j hj hid
    obtain ⟨a, _, hfa⟩ := List.mem_map.mp hj
    by_cases ha : a.id = id
    · rw [if_pos ha] at hfa
      subst hfa
      exact ⟨rfl, rfl, by simp⟩
    · rw [if_neg ha] at hfa
      subst hfa
      exact absurd hid ha
  · intro c hc
    have := (List.mem_filter.mp hc).2
    simpa using this
  · rfl

/-- Witness for C5: the record for `c0ffee12` exists and the theorem applies
to the concrete state. -/
theorem killJob_spec_witness :
    (stEx.jobs.find? (fun j => j.id = "c0ffee12")).isSome ∧
    (∃ st', killJob stEx "c0ffee12" false 1735689700000 = some st' ∧
      (∃ j ∈ st'.jobs, j.id = "c0ffee12") ∧
      (∀ j ∈ st'.jobs, j.id = "c0ffee12" →
        j.status = JobStatus.cancelled ∧ j.error = some "Cancelled by user" ∧
        j.status ≠ JobStatus.running) ∧
      (∀ c ∈ st'.claims, c.jobId ≠ "c0ffee12") ∧
      killJob stEx "c0ffee12" false 1735689700000
        = killJob stEx "c0ffee12" true 1735689700000) :=
  ⟨by decide,
   killJob_spec stEx "c0ffee12" false true 1735689700000 (by decide)⟩

/-! ## C1 — ordered refresh heuristics -/

/-- C1: refreshing a job applies the ordered heuristics exactly. A
non-running record is left unchanged; for a running record: a vanished
session yields completed with the best-effort transcript tail as result;
otherwise a captured completion marker yields completed with the full
scrollback as result; otherwise matching error signatures yield failed with
error `"Detected: "` plus the joined matches; otherwise the record is left
unchanged. -/
theorem refreshJobStatus_heuristics (job : Job) (view : SessionView) (now : Nat) :
    (job.status ≠ JobStatus.running → refreshJobStatus job view now = job) ∧
    (job.status = JobStatus.running → view.resolvable = false →
      refreshJobStatus job view now =
        { job with
            status := JobStatus.completed
            result := some view.transcriptTail
            completedAt := some now }) ∧
    (job.status = JobStatus.running → view.resolvable = true →
      containsSub view.pane completionMarker = true →
      refreshJobStatus job view now =
        { job with
            status := JobStatus.completed
            result := some view.fullHistory
            completedAt := some now }) ∧
    (job.status = JobStatus.running → view.resolvable = true →
      containsSub view.pane completionMarker = false →
      matchedSignatures view.pane ≠ [] →
      refreshJobStatus job view now =
        { job with
            status := JobStatus.failed
            error := some ("Detected: "
              ++ String.intercalate ", " (matchedSignatures view.pane))
            completedAt := some now }) ∧
    (job.status = JobStatus.running → view.resolvable = true →
      containsSub view.pane completionMarker = false →
      matchedSignatures view.pane = [] →
      refreshJobStatus job view now = job) := by
  refine ⟨?_, ?_, ?_, ?_, ?_⟩
  · intro h
    simp [refreshJobStatus, h]
  · intro h hres
    simp [refreshJobStatus, h, hres]
  · intro h hres hcm
    simp [refreshJobStatus, h, hres, hcm]
  · intro h hres hcm hm
    simp [refreshJobStatus, h, hres, hcm, hm]
  · intro h hres hcm hm
    simp [refreshJobStatus, h, hres, hcm, hm]

/-- Witness for C1: the three test fixtures, each through the matching
heuristic of the theorem. -/
theorem refreshJobStatus_heuristics_witness :
    jobRun.status = JobStatus.running ∧
    refreshJobStatus jobRun viewGone 7 =
      { jobRun with
          status := JobStatus.completed
          result := some "session output"
          completedAt := some 7 } ∧
    refreshJobStatus jobRun viewMarker 8 =
      { jobRun with
          status := JobStatus.completed
          result := some "full history output"
          completedAt := some 8 } ∧
    refreshJobStatus jobRun viewErr 9 =
      { jobRun with
          status := JobStatus.failed
          error := some ("Detected: "
            ++ String.intercalate ", " (matchedSignatures viewErr.pane))
          completedAt := some 9 } ∧
    "Detected: " ++ String.intercalate ", " (matchedSignatures viewErr.pane)
      = "Detected: Error:" :=
  ⟨rfl,
   (refreshJobStatus_heuristics jobRun viewGone 7).2.1 rfl rfl,
   (refreshJobStatus_heuristics jobRun viewMarker 8).2.2.1 rfl rfl (by decide),
   (refreshJobStatus_heuristics jobRun viewErr 9).2.2.2.1 rfl rfl (by decide)
     (by decide),
   by decide⟩

/-! ## C8 — typed soft failures at the adapter boundary -/

/-- C8: for every session name, the externally-shelled adapter operations
convert an absent session or a non-zero tmux exit into typed soft failures —
`sendMessage`, `sendControl` and `killSession` return `false`, `capturePane`
and `captureFullHistory` return `null`, `listSessions` returns the empty
list — and, being total functions of the environment, none of them throws. -/
theorem adapter_soft_failures (env : TmuxEnv) (name key : String)
    (lines : Option Nat) (start : Option Int) :
    (env.sessionCheck name = false →
      sendMessage env name = false ∧
      sendControl env name key = false ∧
      killSession env name = false ∧
      capturePane env name lines start = none ∧
      captureFullHistory env name = none) ∧
    ((∀ args, ∃ e, env.run args = Except.error e) →
      sendMessage env name = false ∧
      sendControl env name key = false ∧
      killSession env name = false) ∧
    ((∀ args, ∃ e, env.runOutput args = Except.error e) →
      capturePane env name lines start = none ∧
      captureFullHistory env name = none ∧
      listSessions env = []) := by
  refine ⟨?_, ?_, ?_⟩
  · intro h
    refine ⟨?_, ?_, ?_, ?_, ?_⟩ <;>
      simp [sendMessage, sendControl, killSession, capturePane,
        captureFullHistory, sessionExists, h]
  · intro h
    obtain ⟨e1, he1⟩ := h ["load-buffer"]
    obtain ⟨e2, he2⟩ := h ["send-keys", "-t", name, key]
    obtain ⟨e3, he3⟩ := h ["kill-session", "-t", name]
    refine ⟨?_, ?_, ?_⟩
    · simp [sendMessage, safeSendText, he1]
    · simp [sendControl, he2]
    · simp [killSession, he3]
  · intro h
    obtain ⟨e1, he1⟩ := h (capturePaneArgs name start)
    obtain ⟨e2, he2⟩ := h ["capture-pane", "-t", name, "-p", "-S", "-"]
    obtain ⟨e3, he3⟩ := h ["list-sessions", "-F",
      "#{session_name}|#{session_attached}|#{session_windows}|#{session_created}"]
    refine ⟨?_, ?_, ?_⟩
    · simp [capturePane, he1]
    · simp [captureFullHistory, he2]
    · simp [listSessions, he3]

/-- Witness for C8: on the dead environment, both failure hypotheses hold
and every operation reports its typed soft failure. -/
theorem adapter_soft_failures_witness :
    deadEnv.sessionCheck "codex-agent-x" = false ∧
    (sendMessage deadEnv "codex-agent-x" = false ∧
     sendControl deadEnv "codex-agent-x" "C-c" = false ∧
     killSession deadEnv "codex-agent-x" = false ∧
     capturePane deadEnv "codex-agent-x" (some 50) none = none ∧
     captureFullHistory deadEnv "codex-agent-x" = none) ∧
    listSessions deadEnv = [] :=
  ⟨rfl,
   (adapter_soft_failures deadEnv "codex-agent-x" "C-c" (some 50) none).1 rfl,
   ((adapter_soft_failures deadEnv "codex-agent-x" "C-c" (some 50) none).2.2
     (fun _ => ⟨"tmux failed", rfl⟩)).2.2⟩

/-! ## C9 — patch-body scanning -/

/-- The `files_added` component of the scan is the `pushUnique` fold over the
paths the `Add File:` lines contribute. -/
theorem scanFold_added (lines : List String) (stats : DiffStats) :
    (lines.foldl scanPatchLine stats).files_added
      = (lines.filterMap addPathOf).foldl pushUnique stats.files_added := by
  induction lines generalizing stats with
  | nil => rfl
  | cons line rest ih =>
    by_cases h1 : strStarts line "*** Add File: " = true
    · simp [List.filterMap_cons, addPathOf, h1, scanPatchLine, ih]
    · by_cases h2 : strStarts line "*** Update File: " = true
      · simp [List.filterMap_cons, addPathOf, h1, h2, scanPatchLine, ih]
      · by_cases h3 : strStarts line "*** Delete File: " = true
        · simp [List.filterMap_cons, addPathOf, h1, h2, h3, scanPatchLine, ih]
        · simp [List.filterMap_cons, addPathOf, h1, h2, h3, scanPatchLine, ih]

/-- The `files_updated` component, over the `Update File:` contributions. -/
theorem scanFold_updated (lines : List String) (stats : DiffStats) :
    (lines.foldl scanPatchLine stats).files_updated
      = (lines.filterMap updatePathOf).foldl pushUnique stats.files_updated := by
  induction lines generalizing stats with
  | nil => rfl
  | cons line rest ih =>
    by_cases h1 : strStarts line "*** Add File: " = true
    · simp [List.filterMap_cons, updatePathOf, h1, scanPatchLine, ih]
    · by_cases h2 : strStarts line "*** Update File: " = true
      · simp [List.filterMap_cons, updatePathOf, h1, h2, scanPatchLine, ih]
      · by_cases h3 : strStarts line "*** Delete File: " = true
        · simp [List.filterMap_cons, updatePathOf, h1, h2, h3, scanPatchLine, ih]
        · simp [List.filterMap_cons, updatePathOf, h1, h2, h3, scanPatchLine, ih]

/-- The `files_deleted` component, over the `Delete File:` contributions. -/
theorem scanFold_deleted (lines : List String) (stats : DiffStats) :
    (lines.foldl scanPatchLine stats).files_deleted
      = (lines.filterMap deletePathOf).foldl pushUnique stats.files_deleted := by
  induction lines generalizing stats with
  | nil => rfl
  | cons line rest ih =>
    by_cases h1 : strStarts line "*** Add File: " = true
    · simp [List.filterMap_cons, deletePathOf, h1, scanPatchLine, ih]
    · by_cases h2 : strStarts line "*** Update File: " = true
      · simp [List.filterMap_cons, deletePathOf, h1, h2, scanPatchLine, ih]
      · by_cases h3 : strStarts line "*** Delete File: " = true
        · simp [List.filterMap_cons, deletePathOf, h1, h2, h3, scanPatchLine, ih]
        · simp [List.filterMap_cons, deletePathOf, h1, h2, h3, scanPatchLine, ih]

/-- `keepFirst` commutes with `filter`. -/
theorem keepFirst_filter (p : String → Bool) (l : List String) :
    keepFirst (l.filter p) = (keepFirst l).filter p := by
  induction l with
  | nil => rfl
  | cons a t ih =>
    by_cases hp : p a = true
    · simp only [List.filter_cons, hp, if_true, keepFirst, ih, List.filter_filter]
      congr 1
      apply List.filter_congr
      intro y _
      rw [Bool.and_comm]
    · simp only [Bool.not_eq_true] at hp
      simp only [List.filter_cons, hp, Bool.false_eq_true, if_false, keepFirst, ih,
        List.filter_filter]
      apply List.filter_congr
      intro y _
      by_cases hy : y = a
      · subst hy
        simp [hp]
      · simp [hy]

/-- The `pushUnique` fold is the accumulator followed by the first-occurrence
de-duplication of the fresh elements. -/
theorem foldl_pushUnique_keepFirst (l : List String) :
    ∀ acc, l.foldl pushUnique acc
      = acc ++ keepFirst (l.filter (fun x => !(acc.contains x))) := by
  induction l with
  | nil => intro acc; simp [keepFirst]
  | cons x t ih =>
    intro acc
    by_cases hx : acc.contains x = true
    · have hpu : pushUnique acc x = acc := by
        simp only [pushUnique, hx, if_true]
      have hfx : (!(acc.contains x)) = false := by rw [hx]; rfl
      simp only [List.foldl_cons, hpu, ih, List.filter_cons, hfx, Bool.false_eq_true,
        if_false]
    · have hx' : acc.contains x = false := by simpa using hx
      have hpu : pushUnique acc x = acc ++ [x] := by
        simp only [pushUnique, hx', Bool.false_eq_true, if_false]
      have hfx : (!(acc.contains x)) = true := by rw [hx']; rfl
      simp only [List.foldl_cons, hpu, ih, List.filter_cons, hfx, if_true]
      rw [List.append_assoc]
      congr 1
      simp only [keepFirst, List.singleton_append, List.cons.injEq, true_and]
      have hq : t.filter (fun y => !((acc ++ [x]).contains y))
          = (t.filter (fun y => !(acc.contains y))).filter (fun y => y ≠ x) := by
        rw [List.filter_filter]
        apply List.filter_congr
        intro y _
        by_cases hy : y = x
        · subst hy
          simp
        · simp [hy, List.contains_eq_any_beq, Ne.symm hy]
      rw [hq, keepFirst_filter]

/-- First-occurrence de-duplication never leaves duplicates. -/
theorem keepFirst_nodup (l : List String) : (keepFirst l).Nodup := by
  induction l with
  | nil => simp [keepFirst]
  | cons x t ih =>
    simp only [keepFirst]
    refine List.nodup_cons.mpr ⟨?_, List.Nodup.filter _ ih⟩
    intro hmem
    have := (List.mem_filter.mp hmem).2
    simp at this

/-- A string extended past a marker starts with the marker. -/
theorem strStarts_append_self (pre p : String) : strStarts (pre ++ p) pre = true := by
  rw [strStarts, String.data_append, List.isPrefixOf_iff_prefix]
  exact List.prefix_append _ _

/-- A string extending a marker that does not itself start with a shorter
candidate marker cannot start with that candidate either. -/
theorem strStarts_append_ne (pre1 pre2 p : String)
    (hlen : pre1.data.length ≤ pre2.data.length)
    (hne : List.isPrefixOf pre1.data pre2.data = false) :
    strStarts (pre2 ++ p) pre1 = false := by
  rw [strStarts, String.data_append]
  by_contra h
  rw [Bool.not_eq_false, List.isPrefixOf_iff_prefix] at h
  have htake := List.prefix_iff_eq_take.mp h
  rw [List.take_append_of_le_length hlen] at htake
  have hpre : pre1.data <+: pre2.data := htake ▸ List.take_prefix _ _
  have := List.isPrefixOf_iff_prefix.mpr hpre
  rw [hne] at this
  exact Bool.false_ne_true this

/-- Scanning an `Add File:` line appends its literal path (with exact-match
de-duplication) to the added list. -/
theorem scanLine_add (stats : DiffStats) (p : String) :
    scanPatchLine stats ("*** Add File: " ++ p)
      = { stats with files_added := pushUnique stats.files_added p } := by
  have h1 := strStarts_append_self "*** Add File: " p
  have hdrop : String.mk (("*** Add File: " ++ p).data.drop 14) = p := by
    rw [String.data_append,
      show (14 : Nat) = ("*** Add File: " : String).data.length from by decide,
      List.drop_left]
  simp [scanPatchLine, h1, hdrop]

/-- Scanning an `Update File:` line appends its literal path to the updated
list. -/
theorem scanLine_update (stats : DiffStats) (p : String) :
    scanPatchLine stats ("*** Update File: " ++ p)
      = { stats with files_updated := pushUnique stats.files_updated p } := by
  have h1 : strStarts ("*** Update File: " ++ p) "*** Add File: " = false :=
    strStarts_append_ne _ _ _ (by decide) (by decide)
  have h2 := strStarts_append_self "*** Update File: " p
  have hdrop : String.mk (("*** Update File: " ++ p).data.drop 17) = p := by
    rw [String.data_append,
      show (17 : Nat) = ("*** Update File: " : String).data.length from by decide,
      List.drop_left]
  simp [scanPatchLine, h1, h2, hdrop]

/-- Scanning a `Delete File:` line appends its literal path to the deleted
list. -/
theorem scanLine_delete (stats : DiffStats) (p : String) :
    scanPatchLine stats ("*** Delete File: " ++ p)
      = { stats with files_deleted := pushUnique stats.files_deleted p } := by
  have h1 : strStarts ("*** Delete File: " ++ p) "*** Add File: " = false :=
    strStarts_append_ne _ _ _ (by decide) (by decide)
  have h2 : strStarts ("*** Delete File: " ++ p) "*** Update File: " = false :=
    strStarts_append_ne _ _ _ (by decide) (by decide)
  have h3 := strStarts_append_self "*** Delete File: " p
  have hdrop : String.mk (("*** Delete File: " ++ p).data.drop 17) = p := by
    rw [String.data_append,
      show (17 : Nat) = ("*** Delete File: " : String).data.length from by decide,
      List.drop_left]
  simp [scanPatchLine, h1, h2, h3, hdrop]

/-- A line with no marker leaves the statistics untouched. -/
theorem scanLine_skip (stats : DiffStats) (line : String)
    (h1 : strStarts line "*** Add File: " = false)
    (h2 : strStarts line "*** Update File: " = false)
    (h3 : strStarts line "*** Delete File: " = false) :
    scanPatchLine stats line = stats := by
  simp [scanPatchLine, h1, h2, h3]

/-- C9: the patch-body scan walks the body line by line; each list of the
diff statistics is exactly the first-occurrence de-duplication of the literal
paths contributed by the matching marker lines (so each list is free of exact
duplicates); a body whose lines hold one `Add File:`, one `Update File:` and
one `Delete File:` marker yields exactly one entry per list with the literal
path preserved, as in the concrete test fixture; and a patch-application
record applies this scan to the running diff statistics. -/
theorem scanPatch_spec :
    (∀ body,
      (scanPatchBody {} body).files_added
          = keepFirst ((jsSplitNl body).filterMap addPathOf) ∧
      (scanPatchBody {} body).files_updated
          = keepFirst ((jsSplitNl body).filterMap updatePathOf) ∧
      (scanPatchBody {} body).files_deleted
          = keepFirst ((jsSplitNl body).filterMap deletePathOf)) ∧
    (∀ body,
      (scanPatchBody {} body).files_added.Nodup ∧
      (scanPatchBody {} body).files_updated.Nodup ∧
      (scanPatchBody {} body).files_deleted.Nodup) ∧
    (∀ st body, applyRecord st (SessionRecord.applyPatch body)
        = { st with diff_stats := scanPatchBody st.diff_stats body }) ∧
    (∀ p1 p2 p3,
      ["*** Begin Patch", "*** Add File: " ++ p1, "*** Update File: " ++ p2,
        "*** Delete File: " ++ p3, "*** End Patch"].foldl scanPatchLine {}
        = { files_added := [p1], files_updated := [p2],
            files_deleted := [p3] }) ∧
    scanPatchBody {}
        "*** Begin Patch\n*** Add File: src/new.ts\n*** Update File: src/existing.ts\n*** Delete File: src/old.ts\n*** End Patch"
      = { files_added := ["src/new.ts"], files_updated := ["src/existing.ts"],
          files_deleted := ["src/old.ts"] } := by
  have hlists : ∀ body,
      (scanPatchBody {} body).files_added
          = keepFirst ((jsSplitNl body).filterMap addPathOf) ∧
      (scanPatchBody {} body).files_updated
          = keepFirst ((jsSplitNl body).filterMap updatePathOf) ∧
      (scanPatchBody {} body).files_deleted
          = keepFirst ((jsSplitNl body).filterMap deletePathOf) := by
    intro body
    refine ⟨?_, ?_, ?_⟩
    · rw [scanPatchBody, scanFold_added]
      rw [show (({} : DiffStats)).files_added = [] from rfl,
        foldl_pushUnique_keepFirst]
      simp
    · rw [scanPatchBody, scanFold_updated]
      rw [show (({} : DiffStats)).files_updated = [] from rfl,
        foldl_pushUnique_keepFirst]
      simp
    · rw [scanPatchBody, scanFold_deleted]
      rw [show (({} : DiffStats)).files_deleted = [] from rfl,
        foldl_pushUnique_keepFirst]
      simp
  refine ⟨hlists, ?_, ?_, ?_, ?_⟩
  · intro body
    obtain ⟨ha, hu, hd⟩ := hlists body
    exact ⟨ha ▸ keepFirst_nodup _, hu ▸ keepFirst_nodup _, hd ▸ keepFirst_nodup _⟩
  · intro st body
    rfl
  · intro p1 p2 p3
    simp only [List.foldl_cons, List.foldl_nil]
    rw [scanLine_skip _ _ (by decide) (by decide) (by decide),
      scanLine_add, scanLine_update, scanLine_delete,
      scanLine_skip _ _ (by decide) (by decide) (by decide)]
    simp [pushUnique]
  · decide
